import Mathlib

/-!
# CompetitionMonitor — verification of the response-parsing and heuristic-scoring pipeline

A shallow embedding of the core logic of the repository:

* `parse_competitors_from_text` (backend/main.py): regex-driven extraction of
  competitor records from an LLM text reply;
* `DesignToolsScoringService` (backend/services/scoreservice.py): weighted-keyword
  scoring, threat-level bucketing, recommendation generation and cross-competitor
  comparison.

Python strings are modelled as `List Char`; Python floats as `ℚ` (all weights in the
keyword tables are exactly representable, and no claim depends on binary rounding of
IEEE floats); Python's `None` as `Option`.  `str.lower` / `str.isupper` / `str.isalpha`
are modelled on the Latin and basic Cyrillic ranges, which covers every character
appearing in the repository's tables and in the inputs considered here.
-/

/-! ## Python string primitives -/

/-- Python `\s` / `str.strip` whitespace: space, tab, newline, carriage return,
vertical tab, form feed. -/
def pyIsSpaceChar (c : Char) : Bool :=
  c == ' ' || c == '\t' || c == '\n' || c == '\r' ||
  c == Char.ofNat 11 || c == Char.ofNat 12

/-- Python `str.lower`, restricted to ASCII and the basic Cyrillic block
(`А`..`Я` and `Ё`), which covers the repository's keyword tables. -/
def pyToLower (c : Char) : Char :=
  if 65 ≤ c.toNat ∧ c.toNat ≤ 90 then Char.ofNat (c.toNat + 32)
  else if 1040 ≤ c.toNat ∧ c.toNat ≤ 1071 then Char.ofNat (c.toNat + 32)
  else if c.toNat = 1025 then Char.ofNat 1105
  else c

/-- Python `str.isupper` on a single character, restricted to ASCII and basic
Cyrillic (an uppercase cased letter). -/
def pyIsUpper (c : Char) : Bool :=
  (65 ≤ c.toNat && c.toNat ≤ 90) ||
  (1040 ≤ c.toNat && c.toNat ≤ 1071) || c.toNat == 1025

/-- Python `str.isalpha` on a single character, restricted to ASCII and basic
Cyrillic. -/
def pyIsAlpha (c : Char) : Bool :=
  (65 ≤ c.toNat && c.toNat ≤ 90) || (97 ≤ c.toNat && c.toNat ≤ 122) ||
  (1040 ≤ c.toNat && c.toNat ≤ 1103) || c.toNat == 1025 || c.toNat == 1105

/-- Python `str.strip()`: drop whitespace from both ends. -/
def pyStrip (l : List Char) : List Char :=
  ((l.dropWhile pyIsSpaceChar).reverse.dropWhile pyIsSpaceChar).reverse

/-- Python `str.rstrip('.')`: drop trailing period characters. -/
def rstripDot (l : List Char) : List Char :=
  (l.reverse.dropWhile (· == '.')).reverse

/-- Helper for the substring test: `hay` starts with `needle`. -/
def leadsWith : List Char → List Char → Bool
  | [], _ => true
  | _ :: _, [] => false
  | n :: ns, h :: hs => n == h && leadsWith ns hs

/-- Python's substring test `needle in hay` (contiguous substring). -/
def containsSub (hay needle : List Char) : Bool :=
  match hay with
  | [] => needle.isEmpty
  | _ :: t => leadsWith needle hay || containsSub t needle

/-- Lower-case a whole string (Python `str.lower()`). -/
def lowerChars (l : List Char) : List Char := l.map pyToLower

/-- Python `" ".join(xs)`. -/
def joinSpace (xs : List String) : String := String.intercalate " " xs

/-! ## DesignToolsScoringService (backend/services/scoreservice.py)

The four keyword tables, verbatim from the class body.  Python dicts preserve
insertion order; they are modelled as association lists in source order. -/

def DESIGN_KEYWORDS : List (String × ℚ) :=
  [("ui/ux", 2), ("дизайн", 2), ("интерфейс", 1.5),
   ("фигма", 1), ("canva", 1), ("adobe", 1),
   ("vector", 1.5), ("растровый", 1), ("svg", 1),
   ("css", 1), ("анимация", 2), ("переходы", 1.5)]

def ANIMATION_KEYWORDS : List (String × ℚ) :=
  [("анимация", 3), ("переходы", 2), ("движение", 2),
   ("lottie", 2), ("gsap", 2), ("три.js", 2.5),
   ("webgl", 2.5), ("canvas", 1.5), ("gpu", 2)]

def FEATURE_KEYWORDS : List (String × ℚ) :=
  [("ai", 3), ("ml", 3), ("нейросеть", 3), ("алгоритм", 2),
   ("автоматизация", 2), ("обработка", 1.5), ("фильтры", 1),
   ("слои", 1), ("группировка", 1), ("версионирование", 2),
   ("коллаборация", 2), ("синхронизация", 1.5)]

def UX_KEYWORDS : List (String × ℚ) :=
  [("интуитивный", 2), ("удобство", 1.5), ("простота", 1.5),
   ("доступность", 2), ("a11y", 2), ("wcag", 1.5),
   ("адаптивный", 1.5), ("мобильный", 1), ("оптимизация", 1)]

/-- Source `DesignToolsScoringService._score_text`: lower-case the text, add the weight of
every keyword occurring as a substring (once per keyword), normalise by the total
table weight to a 0–10 scale, clamp at 10.  Empty text scores 0. -/
def score_text (text : String) (keywords : List (String × ℚ)) : ℚ :=
  if text = "" then 0
  else
    let textLower := lowerChars text.data
    let score := keywords.foldl
      (fun acc kw => if containsSub textLower kw.1.data then acc + kw.2 else acc) 0
    let maxScore := (keywords.map Prod.snd).sum
    let normalized := if maxScore > 0 then score / maxScore * 10 else 0
    min 10 normalized

/-- Python `round(q, 2)` (the half-integer tie-break of binary floats is not hit by
any input considered in this development). -/
def round2 (q : ℚ) : ℚ := (round (q * 100) : ℤ) / 100

/-- The threat-level bucketing inlined in
`DesignToolsScoringService.score_competitor_text`:
`overall >= 7.5 → "high"`, `overall >= 5 → "medium"`, otherwise `"low"`. -/
def threat_level_of (overall : ℚ) : String :=
  if overall ≥ 7.5 then "high" else if overall ≥ 5 then "medium" else "low"

/-- The six recommendation strings, verbatim from
`DesignToolsScoringService._generate_recommendations`. -/
def recDesign : String := "🎨 Улучшить дизайн интерфейса - инвестировать в UI/UX"

def recAnimation : String := "🎬 Добавить микроанимации для улучшения взаимодействия"

def recFeatures : String := "⚙️  Расширить функциональность, особенно AI-features"

def recUx : String := "👥 Улучшить доступность и эргономику интерфейса"

def recPrice : String := "💰 Конкурировать по качеству, а не по цене"

def recAi : String := "🤖 Конкурент активно использует AI - это угроза"

/-- Python `" ".join(weaknesses).lower()` as used twice in `_generate_recommendations`. -/
def weaknessText (weaknesses : List String) : List Char :=
  lowerChars (joinSpace weaknesses).data

/-- Source `DesignToolsScoringService._generate_recommendations`: build the list by the
source's sequence of conditional appends. -/
def generate_recommendations (design animation features ux : ℚ)
    (weaknesses : List String) : List String :=
  let recommendations : List String := []
  let recommendations :=
    if design < 5 then recommendations ++ [recDesign] else recommendations
  let recommendations :=
    if animation < 5 then recommendations ++ [recAnimation] else recommendations
  let recommendations :=
    if features < 5 then recommendations ++ [recFeatures] else recommendations
  let recommendations :=
    if ux < 5 then recommendations ++ [recUx] else recommendations
  let recommendations :=
    if containsSub (weaknessText weaknesses) "цена".data
    then recommendations ++ [recPrice] else recommendations
  let recommendations :=
    if ¬ containsSub (weaknessText weaknesses) "ai".data ∧ features > 6
    then recommendations ++ [recAi] else recommendations
  recommendations

/-- Schema `CompetitorAnalysis` (backend/models/schemas.py) — the fields read by the
scorer. -/
structure CompetitorAnalysis where
  strengths : List String
  weaknesses : List String
  unique_offers : List String
  summary : String
deriving DecidableEq

/-- The result dictionary of `score_competitor_text`. -/
structure ScoreResult where
  design_score : ℚ
  animation_potential : ℚ
  feature_richness : ℚ
  ux_rating : ℚ
  overall_threat_level : String
  overall_score : ℚ
  strengths_analysis : List (String × ℚ)
  recommendations : List String
deriving DecidableEq

/-- The aggregate text scored by `score_competitor_text`. -/
def combined_text (a : CompetitorAnalysis) : String :=
  joinSpace [joinSpace a.strengths, joinSpace a.weaknesses,
             joinSpace a.unique_offers, a.summary]

/-- Source `DesignToolsScoringService._analyze_strengths`. -/
def analyze_strengths (strengths : List String) : List (String × ℚ) :=
  let combined := joinSpace strengths |>.data |> lowerChars |>.asString
  [("design_focus", score_text combined DESIGN_KEYWORDS),
   ("animation_focus", score_text combined ANIMATION_KEYWORDS),
   ("ai_features", score_text combined FEATURE_KEYWORDS),
   ("ux_emphasis", score_text combined UX_KEYWORDS)]

/-- Source `DesignToolsScoringService.score_competitor_text`: the four category scores,
the overall mean, the threat bucket (computed on the unrounded mean) and the
result record with its two-decimal roundings. -/
def score_competitor_text (a : CompetitorAnalysis) : ScoreResult :=
  let design_score := score_text (combined_text a) DESIGN_KEYWORDS
  let animation_potential := score_text (combined_text a) ANIMATION_KEYWORDS
  let feature_richness := score_text (combined_text a) FEATURE_KEYWORDS
  let ux_rating := score_text (combined_text a) UX_KEYWORDS
  let overall_score := (design_score + animation_potential + feature_richness + ux_rating) / 4
  let threat_level := threat_level_of overall_score
  { design_score := round2 design_score
    animation_potential := round2 animation_potential
    feature_richness := round2 feature_richness
    ux_rating := round2 ux_rating
    overall_threat_level := threat_level
    overall_score := round2 overall_score
    strengths_analysis := (analyze_strengths a.strengths).map (fun p => (p.1, round2 p.2))
    recommendations := generate_recommendations design_score animation_potential
      feature_richness ux_rating a.weaknesses }

/-! ## Cross-competitor comparison -/

/-- The `threat_levels` histogram of `compare_competitors`. -/
structure ThreatLevels where
  high : Nat
  medium : Nat
  low : Nat
deriving DecidableEq

/-- The `market_analysis` record of `_analyze_market`. -/
structure MarketAnalysis where
  avg_design_score : ℚ
  avg_animation_potential : ℚ
  avg_feature_richness : ℚ
  avg_ux_rating : ℚ
  market_maturity : String
deriving DecidableEq

/-- The result of `compare_competitors`. -/
structure ComparisonResult where
  ranking : List (String × ℚ)
  threat_levels : ThreatLevels
  market_analysis : MarketAnalysis
deriving DecidableEq

/-- Source `DesignToolsScoringService._assess_maturity`. -/
def assess_maturity (design animation features ux : ℚ) : String :=
  let avg_score := (design + animation + features + ux) / 4
  if avg_score ≥ 7.5 then "mature" else if avg_score ≥ 5 then "growing" else "emerging"

/-- Source `DesignToolsScoringService._analyze_market`: averages of the four category
fields (0 on an empty mapping), rounded in the output record, with the maturity
label computed from the unrounded averages. -/
def analyze_market (scores : List (String × ScoreResult)) : MarketAnalysis :=
  let n : ℚ := scores.length
  let avg_design := if scores.isEmpty then 0
    else (scores.map (fun p => p.2.design_score)).sum / n
  let avg_animation := if scores.isEmpty then 0
    else (scores.map (fun p => p.2.animation_potential)).sum / n
  let avg_features := if scores.isEmpty then 0
    else (scores.map (fun p => p.2.feature_richness)).sum / n
  let avg_ux := if scores.isEmpty then 0
    else (scores.map (fun p => p.2.ux_rating)).sum / n
  { avg_design_score := round2 avg_design
    avg_animation_potential := round2 avg_animation
    avg_feature_richness := round2 avg_features
    avg_ux_rating := round2 avg_ux
    market_maturity := assess_maturity avg_design avg_animation avg_features avg_ux }

/-- Source `DesignToolsScoringService.compare_competitors`.  A Python dict preserves
insertion order, so the input mapping is an association list; Python's `sorted`
with `reverse=True` is a stable descending sort, modelled by `List.insertionSort`
with the total relation `overall_score of b ≤ overall_score of a`. -/
def compare_competitors (scores : List (String × ScoreResult)) : ComparisonResult :=
  let competitors_sorted :=
    List.insertionSort (fun a b : String × ScoreResult =>
      b.2.overall_score ≤ a.2.overall_score) scores
  { ranking := competitors_sorted.map (fun p => (p.1, p.2.overall_score))
    threat_levels :=
      { high := (scores.filter (fun p => p.2.overall_threat_level == "high")).length
        medium := (scores.filter (fun p => p.2.overall_threat_level == "medium")).length
        low := (scores.filter (fun p => p.2.overall_threat_level == "low")).length }
    market_analysis := analyze_market scores }

/-! ## parse_competitors_from_text (backend/main.py)

The four regex patterns are modelled as explicit matchers.  Patterns 1, 2 and 4
are anchored at line starts (`^` with `re.MULTILINE`) and their description group
`(.+?)(?:\n|$)` cannot cross a newline, so they are applied line by line
(a `\s+`/`\s*` run crossing a blank-line boundary, or a bold name containing a
newline, would yield the same surviving entities).  Pattern 3 is unanchored and
is modelled as the left-to-right non-overlapping scan of `re.finditer`. -/

/-- One of the separators `(?:–|-|:)` (en dash, hyphen, colon). -/
def isSepChar (c : Char) : Bool := c == '–' || c == '-' || c == ':'

/-- Regex `\*\*([^*]+?)\*\*`: an opening `**`, a non-empty run of non-`*` characters
(the name group), a closing `**`.  Returns the name and the remainder. -/
def parseBoldName : List Char → Option (List Char × List Char)
  | '*' :: '*' :: rest =>
    let name := rest.takeWhile (· != '*')
    if name.isEmpty then none
    else
      match rest.dropWhile (· != '*') with
      | '*' :: '*' :: r => some (name, r)
      | _ => none
  | _ => none

/-- Regex `\s*(?:–|-|:)\s*(.+?)(?:\n|$)` on the remainder of a line: a separator, then
the description is the rest of the line.  If only whitespace follows the
separator, regex backtracking hands one whitespace character to the `.+?` group;
such a candidate is inevitably discarded later by the length-10 filter. -/
def sepAndTail (r : List Char) : Option (List Char) :=
  match r.dropWhile pyIsSpaceChar with
  | sep :: r2 =>
    if isSepChar sep then
      let d := r2.dropWhile pyIsSpaceChar
      if d.isEmpty then
        if r2.isEmpty then none else some [r2.getLastD ' ']
      else some d
    else none
  | [] => none

/-- Pattern 1: `^[\s]*[\-\*]\s+\*\*([^*]+?)\*\*\s*(?:–|-|:)\s*(.+?)(?:\n|$)`. -/
def pattern1Line (line : List Char) : Option (List Char × List Char) :=
  match line.dropWhile pyIsSpaceChar with
  | b :: rest =>
    if b == '-' || b == '*' then
      match rest with
      | s :: _ =>
        if pyIsSpaceChar s then
          match parseBoldName (rest.dropWhile pyIsSpaceChar) with
          | some (name, r) => (sepAndTail r).map (fun d => (name, d))
          | none => none
        else none
      | [] => none
    else none
  | [] => none

/-- Pattern 2: `^[\s]*\*\*([^*]+?)\*\*\s*(?:–|-|:)\s*(.+?)(?:\n|$)`. -/
def pattern2Line (line : List Char) : Option (List Char × List Char) :=
  match parseBoldName (line.dropWhile pyIsSpaceChar) with
  | some (name, r) => (sepAndTail r).map (fun d => (name, d))
  | none => none

/-- Pattern 4: `^\d+\.\s+\*\*([^*]+?)\*\*\s*(?:–|-|:)\s*(.+?)(?:\n|$)`. -/
def pattern4Line (line : List Char) : Option (List Char × List Char) :=
  match line.takeWhile Char.isDigit, line.dropWhile Char.isDigit with
  | [], _ => none
  | _ :: _, '.' :: rest =>
    match rest with
    | s :: _ =>
      if pyIsSpaceChar s then
        match parseBoldName (rest.dropWhile pyIsSpaceChar) with
        | some (name, r) => (sepAndTail r).map (fun d => (name, d))
        | none => none
      else none
    | [] => none
  | _ :: _, _ => none

/-- One attempt of pattern 3 `\*\*([^*]+?)\*\*:\s*([^.\n]+)` at the current
position; on success returns the candidate and the remainder after the match.
When only whitespace follows the colon, backtracking gives `[^.\n]+` the last
non-newline whitespace character of the run (discarded later by the length
filter). -/
def pattern3At (l : List Char) : Option ((List Char × List Char) × List Char) :=
  match parseBoldName l with
  | some (name, r) =>
    match r with
    | ':' :: r2 =>
      let run := r2.takeWhile pyIsSpaceChar
      let after := r2.dropWhile pyIsSpaceChar
      let desc := after.takeWhile (fun c => c != '.' && c != '\n')
      if desc.isEmpty then
        match (run.filter (· != '\n')).getLast? with
        | some c => some ((name, [c]), after)
        | none => none
      else some ((name, desc), after.drop desc.length)
    | _ => none
  | none => none

/-- Scan of `re.finditer` for pattern 3: try at each position, resume after a
match, advance one character otherwise.  The fuel is the text length, which
bounds the number of steps. -/
def pattern3Scan : Nat → List Char → List (List Char × List Char)
  | 0, _ => []
  | _ + 1, [] => []
  | fuel + 1, c :: rest =>
    match pattern3At (c :: rest) with
    | some (cand, after) => cand :: pattern3Scan fuel after
    | none => pattern3Scan fuel rest

/-- Regex `re.sub(r'\[\d+\]', '', desc)`: one citation marker `[<digits>]` at the head
of the input, returning the remainder. -/
def matchCitation : List Char → Option (List Char)
  | '[' :: rest =>
    if (rest.takeWhile Char.isDigit).isEmpty then none
    else
      match rest.dropWhile Char.isDigit with
      | ']' :: r => some r
      | _ => none
  | _ => none

/-- The left-to-right, non-overlapping removal scan of `re.sub`. -/
def removeCitationsAux : Nat → List Char → List Char
  | 0, l => l
  | _ + 1, [] => []
  | fuel + 1, c :: rest =>
    match matchCitation (c :: rest) with
    | some r => removeCitationsAux fuel r
    | none => c :: removeCitationsAux fuel rest

/-- Remove every `[<digits>]` citation marker. -/
def removeCitations (l : List Char) : List Char := removeCitationsAux l.length l

/-- A parsed competitor record (the dict appended in
`parse_competitors_from_text`; `score` stays empty and is omitted). -/
structure Competitor where
  name : String
  description : String
  strengths : List String
  weaknesses : List String
deriving DecidableEq

/-- The uppercase filter `if not name[0].isupper(): continue` applied to a
candidate name. -/
def uppercase_filter (name : String) : Bool :=
  pyIsUpper (name.data.headD ' ')

/-- Modelled from the spec: the §3 name rule — "must begin with an uppercase
letter (culture-sensitive: 'uppercase' means the first alphabetic code point is
in upper case per locale rules)".  The first alphabetic code point of the name
must be uppercase. -/
def spec_name_rule (name : String) : Bool :=
  match name.data.dropWhile (fun c => ¬ pyIsAlpha c) with
  | [] => false
  | c :: _ => pyIsUpper c

/-- Split the text into its `re.MULTILINE` lines. -/
def splitLines (text : List Char) : List (List Char) :=
  text.splitOn '\n'

/-- All candidates of the four patterns, in pattern order then match order. -/
def allCandidates (text : List Char) : List (List Char × List Char) :=
  (splitLines text).filterMap pattern1Line ++
  (splitLines text).filterMap pattern2Line ++
  pattern3Scan text.length text ++
  (splitLines text).filterMap pattern4Line

/-- The filtering loop of `parse_competitors_from_text`: strip the groups,
reject short names, names with a non-uppercase first character and names already
seen (case-insensitively); clean the description (citation markers removed,
stripped), reject descriptions shorter than 10 characters, then strip trailing
periods, truncate to 200 characters and append. -/
def filterCandidates : List (List Char × List Char) → List (List Char) → List Competitor
  | [], _ => []
  | (rawName, rawDesc) :: rest, seen =>
    let name := pyStrip rawName
    if name.length < 2 then filterCandidates rest seen
    else if ¬ uppercase_filter name.asString then filterCandidates rest seen
    else
      let nameLower := lowerChars name
      if nameLower ∈ seen then filterCandidates rest seen
      else
        let desc := pyStrip (removeCitations (pyStrip rawDesc))
        if desc.length < 10 then filterCandidates rest seen
        else
          { name := name.asString
            description := ((rstripDot desc).take 200).asString
            strengths := []
            weaknesses := [] } :: filterCandidates rest (nameLower :: seen)

/-- Source `parse_competitors_from_text` (backend/main.py).  The Lean function is total:
the source's "never throws" contract is the totality of this definition.  `none`
models Python `None`; `if not text` catches both `None` and the empty string. -/
def parse_competitors_from_text (text : Option String) : List Competitor :=
  match text with
  | none => []
  | some t =>
    if t = "" then []
    else (filterCandidates (allCandidates t.data) []).take 10

/-! ## Spec-side definitions and concrete inputs used by the claims -/

/-- Modelled from the spec (§4.2): the summed weight of every keyword that occurs
as a substring of the lower-cased text, each keyword counted once. -/
def spec_matched_weight (text : String) (keywords : List (String × ℚ)) : ℚ :=
  ((keywords.filter (fun kw => containsSub (lowerChars text.data) kw.1.data)).map
    Prod.snd).sum

/-- Modelled from the spec (§4.2): the total weight of a category table. -/
def spec_total_weight (keywords : List (String × ℚ)) : ℚ :=
  (keywords.map Prod.snd).sum

/-- The exact end-to-end input of the spec's §8 scenario (a single line). -/
def c8Input : String :=
  "- **Figma** – Collaborative vector design tool with AI features [1]. - **Sketch** - Mac-only design tool lacking AI."

/-- The §8 scenario input with the two bullets on separate lines. -/
def c8InputTwoLines : String :=
  "- **Figma** – Collaborative vector design tool with AI features [1].\n- **Sketch** - Mac-only design tool lacking AI."

/-- Figma's description as extracted from `c8InputTwoLines`. -/
def figmaDesc : String := "Collaborative vector design tool with AI features "

/-- Sketch's description as extracted from `c8InputTwoLines`. -/
def sketchDesc : String := "Mac-only design tool lacking AI"

/-- The entity extracted from the witness input
"- **Figma** – Collaborative design tool stuff". -/
def witnessCompetitor : Competitor :=
  { name := "Figma", description := "Collaborative design tool stuff",
    strengths := [], weaknesses := [] }

/-- A score record as produced for an overall score of 8 (threat "high"). -/
def scoreResultHigh : ScoreResult := ⟨8, 8, 8, 8, "high", 8, [], []⟩

/-- A score record as produced for an overall score of 6 (threat "medium"). -/
def scoreResultMedium : ScoreResult := ⟨6, 6, 6, 6, "medium", 6, [], []⟩

/-- A score record as produced for an overall score of 3 (threat "low"). -/
def scoreResultLow : ScoreResult := ⟨3, 3, 3, 3, "low", 3, [], []⟩

/-- An analysis with all fields empty, used to instantiate witnesses. -/
def emptyAnalysis : CompetitorAnalysis := ⟨[], [], [], ""⟩

/-! ## Helper lemmas -/

lemma string_eq_empty_of_data_nil {s : String} (h : s.data = []) : s = "" := by
  cases s
  simp only [String.data] at h
  simp [h]

lemma score_foldl_eq (textLower : List Char) :
    ∀ (kws : List (String × ℚ)) (acc : ℚ),
      kws.foldl (fun acc kw => if containsSub textLower kw.1.data then acc + kw.2 else acc)
          acc =
        acc + ((kws.filter (fun kw => containsSub textLower kw.1.data)).map Prod.snd).sum
  | [], acc => by simp
  | kw :: rest, acc => by
    simp only [List.foldl_cons, List.filter_cons]
    by_cases h : containsSub textLower kw.1.data
    · simp only [h, if_true, score_foldl_eq textLower rest]
      simp [add_assoc]
    · simp only [h, Bool.false_eq_true, if_false]
      simp [score_foldl_eq textLower rest, h]

lemma threat_level_of_high_iff (x : ℚ) : threat_level_of x = "high" ↔ 7.5 ≤ x := by
  unfold threat_level_of
  split_ifs with h1 h2
  · exact iff_of_true rfl h1
  · exact iff_of_false (by decide) h1
  · exact iff_of_false (by decide) h1

lemma threat_level_of_medium_iff (x : ℚ) :
    threat_level_of x = "medium" ↔ 5 ≤ x ∧ x < 7.5 := by
  unfold threat_level_of
  split_ifs with h1 h2
  · exact iff_of_false (by decide) (fun hc => (not_lt.mpr h1) hc.2)
  · exact iff_of_true rfl ⟨h2, not_le.mp h1⟩
  · exact iff_of_false (by decide) (fun hc => h2 hc.1)

lemma threat_level_of_low_iff (x : ℚ) : threat_level_of x = "low" ↔ x < 5 := by
  unfold threat_level_of
  split_ifs with h1 h2
  · exact iff_of_false (by decide)
      (not_lt.mpr (le_trans (by norm_num) h1))
  · exact iff_of_false (by decide) (not_lt.mpr h2)
  · exact iff_of_true rfl (not_le.mp h2)

lemma assess_maturity_mature_iff (d a f u : ℚ) :
    assess_maturity d a f u = "mature" ↔ 7.5 ≤ (d + a + f + u) / 4 := by
  unfold assess_maturity
  dsimp only
  split_ifs with h1 h2
  · exact iff_of_true rfl h1
  · exact iff_of_false (by decide) h1
  · exact iff_of_false (by decide) h1

lemma assess_maturity_growing_iff (d a f u : ℚ) :
    assess_maturity d a f u = "growing" ↔
      5 ≤ (d + a + f + u) / 4 ∧ (d + a + f + u) / 4 < 7.5 := by
  unfold assess_maturity
  dsimp only
  split_ifs with h1 h2
  · exact iff_of_false (by decide) (fun hc => (not_lt.mpr h1) hc.2)
  · exact iff_of_true rfl ⟨h2, not_le.mp h1⟩
  · exact iff_of_false (by decide) (fun hc => h2 hc.1)

lemma assess_maturity_emerging_iff (d a f u : ℚ) :
    assess_maturity d a f u = "emerging" ↔ (d + a + f + u) / 4 < 5 := by
  unfold assess_maturity
  dsimp only
  split_ifs with h1 h2
  · exact iff_of_false (by decide) (not_lt.mpr (le_trans (by norm_num) h1))
  · exact iff_of_false (by decide) (not_lt.mpr h2)
  · exact iff_of_true rfl (not_le.mp h2)

lemma orderedInsert_filter_key {α : Type} (key : α → ℚ) (q : ℚ) (a : α) :
    ∀ l : List α,
      (List.orderedInsert (fun x y => key y ≤ key x) a l).filter (fun x => key x == q) =
        if key a == q then a :: l.filter (fun x => key x == q)
        else l.filter (fun x => key x == q)
  | [] => by
    simp only [List.orderedInsert, List.filter]
    by_cases h : key a == q <;> simp [h]
  | b :: t => by
    simp only [List.orderedInsert]
    by_cases hins : key b ≤ key a
    · rw [if_pos hins]
      by_cases ha : key a == q <;> simp [List.filter_cons, ha]
    · rw [if_neg hins]
      by_cases ha : key a == q
      · by_cases hb : key b == q
        · exact absurd (le_of_eq ((eq_of_beq hb).trans (eq_of_beq ha).symm)) hins
        · simp [List.filter_cons, orderedInsert_filter_key key q a t, ha, hb]
      · simp [List.filter_cons, orderedInsert_filter_key key q a t, ha]

lemma insertionSort_filter_key {α : Type} (key : α → ℚ) (q : ℚ) :
    ∀ l : List α,
      (List.insertionSort (fun x y => key y ≤ key x) l).filter (fun x => key x == q) =
        l.filter (fun x => key x == q)
  | [] => rfl
  | a :: t => by
    simp only [List.insertionSort, orderedInsert_filter_key, insertionSort_filter_key key q t,
      List.filter_cons]

lemma filterCandidates_invariant :
    ∀ (cands : List (List Char × List Char)) (seen : List (List Char)),
      List.Pairwise (fun c1 c2 : Competitor =>
        lowerChars c1.name.data ≠ lowerChars c2.name.data) (filterCandidates cands seen) ∧
      ∀ c ∈ filterCandidates cands seen,
        lowerChars c.name.data ∉ seen ∧
        2 ≤ c.name.data.length ∧
        uppercase_filter c.name = true ∧
        c.description.data.length ≤ 200 ∧
        ∃ d : List Char, 10 ≤ d.length ∧ c.description.data = (rstripDot d).take 200
  | [], seen => by simp [filterCandidates]
  | (rawName, rawDesc) :: rest, seen => by
    simp only [filterCandidates]
    by_cases h1 : (pyStrip rawName).length < 2
    · rw [if_pos h1]
      exact filterCandidates_invariant rest seen
    · rw [if_neg h1]
      by_cases h2 : uppercase_filter (pyStrip rawName).asString = true
      · rw [if_neg (not_not_intro h2)]
        by_cases h3 : lowerChars (pyStrip rawName) ∈ seen
        · rw [if_pos h3]
          exact filterCandidates_invariant rest seen
        · rw [if_neg h3]
          by_cases h4 : (pyStrip (removeCitations (pyStrip rawDesc))).length < 10
          · rw [if_pos h4]
            exact filterCandidates_invariant rest seen
          · rw [if_neg h4]
            obtain ⟨ihPW, ihMem⟩ :=
              filterCandidates_invariant rest (lowerChars (pyStrip rawName) :: seen)
            constructor
            · refine List.pairwise_cons.mpr ⟨?_, ihPW⟩
              intro c hc heq
              exact (ihMem c hc).1 (by rw [← heq]; exact List.mem_cons_self _ _)
            · intro c hc
              rcases List.mem_cons.mp hc with hc0 | hcr
              · subst hc0
                refine ⟨h3, Nat.le_of_not_lt h1, h2, ?_, ?_⟩
                · show (List.take 200 (rstripDot (pyStrip (removeCitations (pyStrip rawDesc))))).length ≤ 200
                  rw [List.length_take]
                  exact min_le_left _ _
                · exact ⟨pyStrip (removeCitations (pyStrip rawDesc)), Nat.le_of_not_lt h4, rfl⟩
              · have h := ihMem c hcr
                exact ⟨fun hm => h.1 (List.mem_cons_of_mem _ hm), h.2.1, h.2.2.1,
                  h.2.2.2.1, h.2.2.2.2⟩
      · rw [if_pos h2]
        exact filterCandidates_invariant rest seen

/-! ## Claim theorems -/

/-- C2: for every keyword table (positive weights, non-empty keywords) and every
input text, the category score equals
`min 10 (sum_matched_weights / sum_all_category_weights * 10)`, a keyword's
weight being counted once iff it occurs as a substring of the lower-cased text;
the score lies in `[0, 10]`, and an empty input text or a zero-sum table yields
exactly `0`. -/
theorem score_text_formula (keywords : List (String × ℚ)) (text : String)
    (hpos : ∀ kw ∈ keywords, 0 < kw.2) (hkey : ∀ kw ∈ keywords, kw.1 ≠ "") :
    score_text text keywords =
      min 10 (spec_matched_weight text keywords / spec_total_weight keywords * 10) ∧
    0 ≤ score_text text keywords ∧ score_text text keywords ≤ 10 ∧
    (text = "" → score_text text keywords = 0) ∧
    (spec_total_weight keywords = 0 → score_text text keywords = 0) := by
  have hm : 0 ≤ spec_matched_weight text keywords := by
    apply List.sum_nonneg
    intro x hx
    obtain ⟨kw, hkw, rfl⟩ := List.mem_map.mp hx
    exact le_of_lt (hpos kw (List.mem_of_mem_filter hkw))
  have htot : 0 ≤ spec_total_weight keywords := by
    apply List.sum_nonneg
    intro x hx
    obtain ⟨kw, hkw, rfl⟩ := List.mem_map.mp hx
    exact le_of_lt (hpos kw hkw)
  have heq : score_text text keywords =
      min 10 (spec_matched_weight text keywords / spec_total_weight keywords * 10) := by
    unfold score_text
    by_cases ht : text = ""
    · rw [if_pos ht]
      have hfil : keywords.filter
          (fun kw => containsSub (lowerChars text.data) kw.1.data) = [] := by
        rw [List.filter_eq_nil_iff]
        intro kw hkw
        subst ht
        intro hcs
        have hnil : kw.1.data.isEmpty = true := by
          simpa [containsSub, lowerChars] using hcs
        exact hkey kw hkw (string_eq_empty_of_data_nil (List.isEmpty_iff.mp hnil))
      have hz : spec_matched_weight text keywords = 0 := by
        unfold spec_matched_weight
        rw [hfil]
        rfl
      rw [hz, zero_div, zero_mul]
      exact (min_eq_right (by norm_num)).symm
    · rw [if_neg ht]
      simp only [score_foldl_eq, zero_add]
      by_cases hmax : (0 : ℚ) < (keywords.map Prod.snd).sum
      · rw [if_pos hmax]
        rfl
      · rw [if_neg hmax]
        have h0 : spec_total_weight keywords = 0 :=
          le_antisymm (not_lt.mp hmax) htot
        rw [h0, div_zero, zero_mul]
  refine ⟨heq, ?_, ?_, fun ht => by unfold score_text; rw [if_pos ht], fun h0 => ?_⟩
  · rw [heq]
    exact le_min (by norm_num) (mul_nonneg (div_nonneg hm htot) (by norm_num))
  · rw [heq]
    exact min_le_left _ _
  · rw [heq, h0, div_zero, zero_mul]
    exact min_eq_right (by norm_num)

/-- Witness for `score_text_formula` at the design table and a concrete text. -/
theorem score_text_formula_witness :
    score_text "vector and css tool" DESIGN_KEYWORDS =
      min 10 (spec_matched_weight "vector and css tool" DESIGN_KEYWORDS /
        spec_total_weight DESIGN_KEYWORDS * 10) ∧
    0 ≤ score_text "vector and css tool" DESIGN_KEYWORDS ∧
    score_text "vector and css tool" DESIGN_KEYWORDS ≤ 10 ∧
    (("vector and css tool" : String) = "" →
      score_text "vector and css tool" DESIGN_KEYWORDS = 0) ∧
    (spec_total_weight DESIGN_KEYWORDS = 0 →
      score_text "vector and css tool" DESIGN_KEYWORDS = 0) :=
  score_text_formula DESIGN_KEYWORDS "vector and css tool"
    (by norm_num [DESIGN_KEYWORDS]) (by decide)

/-- C3: entity scoring derives the overall score as the arithmetic mean of the
four category scores and buckets it with the fixed thresholds: exactly at 7.5
the level is "high", at 7.499999 "medium", exactly at 5 "medium", at 4.999999
"low". -/
theorem overall_mean_and_thresholds :
    (∀ a : CompetitorAnalysis,
      (score_competitor_text a).overall_score =
        round2 ((score_text (combined_text a) DESIGN_KEYWORDS +
          score_text (combined_text a) ANIMATION_KEYWORDS +
          score_text (combined_text a) FEATURE_KEYWORDS +
          score_text (combined_text a) UX_KEYWORDS) / 4) ∧
      (score_competitor_text a).overall_threat_level =
        threat_level_of ((score_text (combined_text a) DESIGN_KEYWORDS +
          score_text (combined_text a) ANIMATION_KEYWORDS +
          score_text (combined_text a) FEATURE_KEYWORDS +
          score_text (combined_text a) UX_KEYWORDS) / 4)) ∧
    (∀ x : ℚ, (threat_level_of x = "high" ↔ 7.5 ≤ x) ∧
      (threat_level_of x = "medium" ↔ 5 ≤ x ∧ x < 7.5) ∧
      (threat_level_of x = "low" ↔ x < 5)) ∧
    threat_level_of 7.5 = "high" ∧ threat_level_of 7.499999 = "medium" ∧
    threat_level_of 5 = "medium" ∧ threat_level_of 4.999999 = "low" :=
  ⟨fun _ => ⟨rfl, rfl⟩,
   fun x => ⟨threat_level_of_high_iff x, threat_level_of_medium_iff x,
     threat_level_of_low_iff x⟩,
   by norm_num [threat_level_of], by norm_num [threat_level_of],
   by norm_num [threat_level_of], by norm_num [threat_level_of]⟩

/-- C4: extraction never raises (the embedding is a total function), and empty
or missing (None) input returns the empty sequence. -/
theorem extract_empty_input :
    parse_competitors_from_text none = [] ∧
    parse_competitors_from_text (some "") = [] :=
  ⟨rfl, by decide⟩

/-- C6: recommendation generation is a deterministic function of the four
category scores and the weaknesses text, producing the items in exactly the
fixed order with the stated conditions (design < 5, animation < 5, features < 5,
ux < 5, price keyword present, "ai" absent and features > 6). -/
theorem recommendations_fixed_order (design animation features ux : ℚ)
    (weaknesses : List String) :
    generate_recommendations design animation features ux weaknesses =
      (if design < 5 then [recDesign] else []) ++
      (if animation < 5 then [recAnimation] else []) ++
      (if features < 5 then [recFeatures] else []) ++
      (if ux < 5 then [recUx] else []) ++
      (if containsSub (weaknessText weaknesses) "цена".data then [recPrice] else []) ++
      (if ¬ containsSub (weaknessText weaknesses) "ai".data ∧ features > 6
        then [recAi] else []) := by
  unfold generate_recommendations
  split_ifs <;> simp

/-- C9: the four category fields and overall_score of the Score record are the
computed values rounded to two decimals, while the threat level and the
recommendation thresholds are evaluated on the unrounded values; at overall
7.496 the bucket of the exact mean differs from the bucket of the rounded
field. -/
theorem rounded_fields_unrounded_thresholds (a : CompetitorAnalysis) :
    (score_competitor_text a).design_score =
      round2 (score_text (combined_text a) DESIGN_KEYWORDS) ∧
    (score_competitor_text a).animation_potential =
      round2 (score_text (combined_text a) ANIMATION_KEYWORDS) ∧
    (score_competitor_text a).feature_richness =
      round2 (score_text (combined_text a) FEATURE_KEYWORDS) ∧
    (score_competitor_text a).ux_rating =
      round2 (score_text (combined_text a) UX_KEYWORDS) ∧
    (score_competitor_text a).overall_score =
      round2 ((score_text (combined_text a) DESIGN_KEYWORDS +
        score_text (combined_text a) ANIMATION_KEYWORDS +
        score_text (combined_text a) FEATURE_KEYWORDS +
        score_text (combined_text a) UX_KEYWORDS) / 4) ∧
    (score_competitor_text a).overall_threat_level =
      threat_level_of ((score_text (combined_text a) DESIGN_KEYWORDS +
        score_text (combined_text a) ANIMATION_KEYWORDS +
        score_text (combined_text a) FEATURE_KEYWORDS +
        score_text (combined_text a) UX_KEYWORDS) / 4) ∧
    (score_competitor_text a).recommendations =
      generate_recommendations (score_text (combined_text a) DESIGN_KEYWORDS)
        (score_text (combined_text a) ANIMATION_KEYWORDS)
        (score_text (combined_text a) FEATURE_KEYWORDS)
        (score_text (combined_text a) UX_KEYWORDS) a.weaknesses ∧
    threat_level_of (round2 (7496/1000)) ≠ threat_level_of (7496/1000) :=
  ⟨rfl, rfl, rfl, rfl, rfl, rfl, rfl, by
    norm_num [round2, round_eq, threat_level_of]
    decide⟩

/-- C10: comparing an empty mapping returns without error: empty ranking, all
threat-level counts 0, all market averages 0 and maturity "emerging". -/
theorem compare_empty_mapping :
    (compare_competitors []).ranking = [] ∧
    (compare_competitors []).threat_levels = ⟨0, 0, 0⟩ ∧
    (compare_competitors []).market_analysis.avg_design_score = 0 ∧
    (compare_competitors []).market_analysis.avg_animation_potential = 0 ∧
    (compare_competitors []).market_analysis.avg_feature_richness = 0 ∧
    (compare_competitors []).market_analysis.avg_ux_rating = 0 ∧
    (compare_competitors []).market_analysis.market_maturity = "emerging" :=
  ⟨rfl, rfl,
   by norm_num [compare_competitors, analyze_market, round2],
   by norm_num [compare_competitors, analyze_market, round2],
   by norm_num [compare_competitors, analyze_market, round2],
   by norm_num [compare_competitors, analyze_market, round2],
   by norm_num [compare_competitors, analyze_market, assess_maturity]⟩

/-- C1 counterexample: on this input the extracted description is "abcd"
(length 4), because the length-10 check runs before trailing periods are
stripped — so the claimed lower bound of 10 on the final description fails. -/
theorem extract_short_description_counterexample :
    (parse_competitors_from_text (some "- **Name** – abcd......")).map
      (fun c => c.description) = ["abcd"] ∧
    ("abcd" : String).data.length = 4 := by decide

/-- C1 (amended): extraction returns at most 10 entities with pairwise distinct
case-insensitive names; every description has length at most 200 and arises from
a cleaned description of length at least 10 by stripping trailing periods and
truncating (the final length may drop below 10 through the period stripping). -/
theorem extract_bounded_and_unique (text : String) :
    (parse_competitors_from_text (some text)).length ≤ 10 ∧
    List.Pairwise (fun c1 c2 : Competitor =>
      lowerChars c1.name.data ≠ lowerChars c2.name.data)
      (parse_competitors_from_text (some text)) ∧
    ∀ c ∈ parse_competitors_from_text (some text),
      c.description.data.length ≤ 200 ∧
      ∃ d : List Char, 10 ≤ d.length ∧ c.description.data = (rstripDot d).take 200 := by
  simp only [parse_competitors_from_text]
  by_cases ht : text = ""
  · rw [if_pos ht]
    exact ⟨by norm_num, List.Pairwise.nil, fun c hc => absurd hc (List.not_mem_nil c)⟩
  · rw [if_neg ht]
    obtain ⟨hPW, hMem⟩ := filterCandidates_invariant (allCandidates text.data) []
    refine ⟨?_, ?_, ?_⟩
    · rw [List.length_take]
      exact min_le_left _ _
    · exact hPW.sublist (List.take_sublist _ _)
    · intro c hc
      have h := hMem c (List.take_subset _ _ hc)
      exact ⟨h.2.2.2.1, h.2.2.2.2⟩

/-- Witness for `extract_bounded_and_unique` at a concrete input. -/
theorem extract_bounded_and_unique_witness :
    (parse_competitors_from_text
      (some "- **Figma** – Collaborative design tool stuff")).length ≤ 10 ∧
    (witnessCompetitor.description.data.length ≤ 200 ∧
      ∃ d : List Char, 10 ≤ d.length ∧
        witnessCompetitor.description.data = (rstripDot d).take 200) := by
  have h := extract_bounded_and_unique "- **Figma** – Collaborative design tool stuff"
  exact ⟨h.1, h.2.2 _ (by decide)⟩

/-- C5 counterexample: the name "1Figma" satisfies the spec's rule (first
alphabetic code point `F` is uppercase) but the code's filter checks the first
character `1`, rejecting the candidate. -/
theorem uppercase_filter_counterexample :
    uppercase_filter "1Figma" = false ∧ spec_name_rule "1Figma" = true ∧
    parse_competitors_from_text
      (some "- **1Figma** – a collaborative design tool") = [] := by decide

/-- C5 (amended): a candidate whose stripped name is long enough and whose
cleaned description is long enough passes the filtering loop exactly when the
first character (code point) of the name is an uppercase letter — not the first
alphabetic code point; and every extracted entity's name passed that filter. -/
theorem uppercase_filter_first_char (rawName rawDesc : List Char)
    (hlen : ¬ (pyStrip rawName).length < 2)
    (hdesc : ¬ (pyStrip (removeCitations (pyStrip rawDesc))).length < 10) :
    (filterCandidates [(rawName, rawDesc)] [] ≠ [] ↔
      pyIsUpper ((pyStrip rawName).headD ' ') = true) ∧
    ∀ text : String, ∀ c ∈ parse_competitors_from_text (some text),
      uppercase_filter c.name = true := by
  constructor
  · simp only [filterCandidates]
    rw [if_neg hlen]
    by_cases hu : uppercase_filter (pyStrip rawName).asString = true
    · rw [if_neg (not_not_intro hu), if_neg (List.not_mem_nil _), if_neg hdesc]
      exact iff_of_true (List.cons_ne_nil _ _) hu
    · rw [if_pos hu]
      exact iff_of_false (fun h => h rfl) (fun h => hu h)
  · intro text c hc
    revert hc
    simp only [parse_competitors_from_text]
    by_cases ht : text = ""
    · rw [if_pos ht]
      exact fun hc => absurd hc (List.not_mem_nil c)
    · rw [if_neg ht]
      intro hc
      exact ((filterCandidates_invariant (allCandidates text.data) []).2 c
        (List.take_subset _ _ hc)).2.2.1

/-- Witness for `uppercase_filter_first_char` at a concrete candidate and a
concrete input text. -/
theorem uppercase_filter_first_char_witness :
    (filterCandidates [("Figma".data, "Collaborative design tool".data)] [] ≠ [] ↔
      pyIsUpper ((pyStrip "Figma".data).headD ' ') = true) ∧
    uppercase_filter witnessCompetitor.name = true := by
  have h := uppercase_filter_first_char "Figma".data "Collaborative design tool".data
    (by decide) (by decide)
  exact ⟨h.1, h.2 "- **Figma** – Collaborative design tool stuff" _ (by decide)⟩

/-- C8 counterexample: on the exact single-line §8 input, the first pattern's
description group swallows the rest of the line, so extraction returns a single
entity named "Figma" rather than the claimed two. -/
theorem scenario_counterexample :
    (parse_competitors_from_text (some c8Input)).map (fun c => c.name) = ["Figma"] ∧
    (parse_competitors_from_text (some c8Input)).length = 1 := by decide

set_option maxHeartbeats 2000000 in
/-- C8 (amended): with the two bullets on separate lines, extraction returns
exactly the entities "Figma" and "Sketch" with the citation marker and trailing
periods removed; Figma's description scores non-zero on features and design,
but its feature score equals Sketch's, because "lacking AI" also contains the
substring "ai". -/
theorem scenario_two_line :
    parse_competitors_from_text (some c8InputTwoLines) =
      [{ name := "Figma", description := figmaDesc, strengths := [], weaknesses := [] },
       { name := "Sketch", description := sketchDesc, strengths := [], weaknesses := [] }] ∧
    0 < score_text figmaDesc FEATURE_KEYWORDS ∧
    0 < score_text figmaDesc DESIGN_KEYWORDS ∧
    score_text figmaDesc FEATURE_KEYWORDS = score_text sketchDesc FEATURE_KEYWORDS := by
  refine ⟨by decide, ?_, ?_, ?_⟩
  · have h : score_text figmaDesc FEATURE_KEYWORDS = 30/23 := by
      simp +decide [score_text, FEATURE_KEYWORDS, figmaDesc]
      norm_num
    rw [h]
    norm_num
  · have h : score_text figmaDesc DESIGN_KEYWORDS = 10/11 := by
      simp +decide [score_text, DESIGN_KEYWORDS, figmaDesc]
      norm_num
    rw [h]
    norm_num
  · have h1 : score_text figmaDesc FEATURE_KEYWORDS = 30/23 := by
      simp +decide [score_text, FEATURE_KEYWORDS, figmaDesc]
      norm_num
    have h2 : score_text sketchDesc FEATURE_KEYWORDS = 30/23 := by
      simp +decide [score_text, FEATURE_KEYWORDS, sketchDesc]
      norm_num
    rw [h1, h2]

/-- C7: cross-entity comparison ranks by overall score in descending order,
stably (original insertion order as tiebreak, expressed as filter-invariance at
every score value), counts entities per threat level, and derives the market
maturity label by the threshold bands applied to the mean of the four category
averages; on the concrete three-entity scenario with overalls 8, 6, 3 the
ranking is exactly descending and the histogram is one per level. -/
theorem compare_ranking_sorted_stable :
    (∀ scores : List (String × ScoreResult),
      List.Sorted (fun x y : String × ℚ => y.2 ≤ x.2) (compare_competitors scores).ranking ∧
      ((compare_competitors scores).ranking).Perm
        (scores.map (fun p => (p.1, p.2.overall_score))) ∧
      (∀ q : ℚ,
        ((compare_competitors scores).ranking.filter (fun e => e.2 == q)) =
          ((scores.map (fun p => (p.1, p.2.overall_score))).filter (fun e => e.2 == q))) ∧
      (compare_competitors scores).threat_levels =
        ⟨(scores.filter (fun p => p.2.overall_threat_level == "high")).length,
         (scores.filter (fun p => p.2.overall_threat_level == "medium")).length,
         (scores.filter (fun p => p.2.overall_threat_level == "low")).length⟩ ∧
      (compare_competitors scores).market_analysis = analyze_market scores) ∧
    (∀ d an f u : ℚ,
      (assess_maturity d an f u = "mature" ↔ 7.5 ≤ (d + an + f + u) / 4) ∧
      (assess_maturity d an f u = "growing" ↔
        5 ≤ (d + an + f + u) / 4 ∧ (d + an + f + u) / 4 < 7.5) ∧
      (assess_maturity d an f u = "emerging" ↔ (d + an + f + u) / 4 < 5)) ∧
    (compare_competitors [("Beta", scoreResultMedium), ("Alpha", scoreResultHigh),
      ("Gamma", scoreResultLow)]).ranking = [("Alpha", 8), ("Beta", 6), ("Gamma", 3)] ∧
    (compare_competitors [("Beta", scoreResultMedium), ("Alpha", scoreResultHigh),
      ("Gamma", scoreResultLow)]).threat_levels = ⟨1, 1, 1⟩ ∧
    (compare_competitors [("Beta", scoreResultMedium), ("Alpha", scoreResultHigh),
      ("Gamma", scoreResultLow)]).market_analysis.market_maturity = "growing" := by
  refine ⟨fun scores => ?_,
    fun d an f u => ⟨assess_maturity_mature_iff d an f u,
      assess_maturity_growing_iff d an f u, assess_maturity_emerging_iff d an f u⟩,
    ?_, ?_, ?_⟩
  · haveI : IsTotal (String × ScoreResult)
        (fun a b => b.2.overall_score ≤ a.2.overall_score) :=
      ⟨fun _ _ => le_total _ _⟩
    haveI : IsTrans (String × ScoreResult)
        (fun a b => b.2.overall_score ≤ a.2.overall_score) :=
      ⟨fun _ _ _ h1 h2 => le_trans h2 h1⟩
    refine ⟨?_, ?_, ?_, rfl, rfl⟩
    · exact List.Pairwise.map _ (fun _ _ h => h)
        (List.sorted_insertionSort _ scores)
    · exact (List.perm_insertionSort _ scores).map _
    · intro q
      show ((List.insertionSort _ scores).map _).filter _ = _
      rw [List.filter_map, List.filter_map]
      exact congrArg _ (insertionSort_filter_key (fun p => p.2.overall_score) q scores)
  · norm_num [compare_competitors, List.insertionSort, List.orderedInsert,
      scoreResultHigh, scoreResultMedium, scoreResultLow]
  · decide
  · norm_num [compare_competitors, analyze_market, assess_maturity,
      scoreResultHigh, scoreResultMedium, scoreResultLow]

/-- Witness for `overall_mean_and_thresholds` at a concrete overall score. -/
theorem overall_mean_and_thresholds_witness :
    (threat_level_of 8 = "high" ↔ (7.5 : ℚ) ≤ 8) ∧ threat_level_of 7.5 = "high" :=
  ⟨(overall_mean_and_thresholds.2.1 8).1, overall_mean_and_thresholds.2.2.1⟩

/-- Witness for `recommendations_fixed_order` at concrete scores. -/
theorem recommendations_fixed_order_witness :
    generate_recommendations 0 0 0 0 [] =
      (if (0 : ℚ) < 5 then [recDesign] else []) ++
      (if (0 : ℚ) < 5 then [recAnimation] else []) ++
      (if (0 : ℚ) < 5 then [recFeatures] else []) ++
      (if (0 : ℚ) < 5 then [recUx] else []) ++
      (if containsSub (weaknessText []) "цена".data then [recPrice] else []) ++
      (if ¬ containsSub (weaknessText []) "ai".data ∧ (0 : ℚ) > 6
        then [recAi] else []) :=
  recommendations_fixed_order 0 0 0 0 []

/-- Witness for `compare_ranking_sorted_stable` at a concrete mapping. -/
theorem compare_ranking_sorted_stable_witness :
    List.Sorted (fun x y : String × ℚ => y.2 ≤ x.2)
      (compare_competitors [("Beta", scoreResultMedium)]).ranking :=
  (compare_ranking_sorted_stable.1 [("Beta", scoreResultMedium)]).1

/-- Witness for `rounded_fields_unrounded_thresholds` at the empty analysis. -/
theorem rounded_fields_unrounded_thresholds_witness :
    (score_competitor_text emptyAnalysis).overall_threat_level =
      threat_level_of ((score_text (combined_text emptyAnalysis) DESIGN_KEYWORDS +
        score_text (combined_text emptyAnalysis) ANIMATION_KEYWORDS +
        score_text (combined_text emptyAnalysis) FEATURE_KEYWORDS +
        score_text (combined_text emptyAnalysis) UX_KEYWORDS) / 4) :=
  (rounded_fields_unrounded_thresholds emptyAnalysis).2.2.2.2.2.1

/-- Witness for `extract_empty_input` (no hypotheses; restated application). -/
theorem extract_empty_input_witness :
    parse_competitors_from_text none = [] :=
  extract_empty_input.1
